import Mathlib

/-!
Verification of `src/app/sounds.js` of gmpublisher: a named-sound playback
module. The module holds a fixed object `audio` mapping five sound names
to `Audio` clips, and exports `playSound` / `stopSound` which dereference
`audio[sound]` and call `.play()`, `.pause()` and assign `.currentTime = 0`.

The embedding models the module state as an association list from names to
clip states. An `Audio` clip is observable through its source path, its
playing/paused flag and its playback position (`currentTime`). A
dereference of a missing key fails with a lookup error that propagates to
the caller, modelled with `Except`.
-/

/-- The observable state of one platform `Audio` clip: the resource path it
was constructed from, whether it is currently playing (the negation of the
platform `paused` flag), and its playback position `currentTime`. -/
structure Clip where
  src : String
  playing : Bool
  currentTime : Nat
deriving DecidableEq, Repr

/-- The module state: the `audio` object, a keyed collection of clips. -/
abbrev SoundState := List (String × Clip)

/-- The error raised by dereferencing a key absent from the `audio` object
(the spec's LookupError); it carries the offending name. -/
inductive JsError where
  | lookupError : String → JsError
deriving DecidableEq, Repr

/-- The `audio` object as initialized at module load:
`const audio = { 'alert': new Audio('/sound/alert.wav'), ... }`.
A freshly constructed clip is paused at position `0`. -/
def audio : SoundState :=
  [ ("alert", ⟨"/sound/alert.wav", false, 0⟩),
    ("success", ⟨"/sound/success.wav", false, 0⟩),
    ("error", ⟨"/sound/error.wav", false, 0⟩),
    ("btn-on", ⟨"/sound/btn_on.ogg", false, 0⟩),
    ("btn-off", ⟨"/sound/btn_off.ogg", false, 0⟩) ]

/-- The five registered sound names, in declaration order. -/
def soundNames : List String :=
  ["alert", "success", "error", "btn-on", "btn-off"]

/-- The JS property read `audio[n]`: `some` clip for a present key,
`none` (undefined) otherwise. -/
def getClip (s : SoundState) (n : String) : Option Clip :=
  match s with
  | [] => none
  | (k, v) :: t => if n = k then some v else getClip t n

/-- Mutate the clip stored under key `n` to `c`, leaving the key structure
of the object untouched (JS property assignment on an existing key). -/
def setClip (s : SoundState) (n : String) (c : Clip) : SoundState :=
  match s with
  | [] => []
  | (k, v) :: t =>
    if k = n then (k, c) :: setClip t n c else (k, v) :: setClip t n c

/-- `audio[sound].play()`: dereference the key, then set the playing flag;
the position is untouched (playback resumes from the stored position) and
the promise returned by `play()` is discarded. A missing key faults at the
dereference. -/
def playSound (sound : String) (s : SoundState) : Except JsError SoundState :=
  match getClip s sound with
  | none => Except.error (JsError.lookupError sound)
  | some c => Except.ok (setClip s sound { c with playing := true })

/-- `audio[sound].pause()`: dereference the key, then clear the playing
flag. -/
def pauseClip (sound : String) (s : SoundState) : Except JsError SoundState :=
  match getClip s sound with
  | none => Except.error (JsError.lookupError sound)
  | some c => Except.ok (setClip s sound { c with playing := false })

/-- `audio[sound].currentTime = 0`: dereference the key, then reset the
position. -/
def setTimeZero (sound : String) (s : SoundState) : Except JsError SoundState :=
  match getClip s sound with
  | none => Except.error (JsError.lookupError sound)
  | some c => Except.ok (setClip s sound { c with currentTime := 0 })

/-- `stopSound`: `audio[sound].pause(); audio[sound].currentTime = 0;` —
two statements in sequence, each performing its own dereference; an error
in the first aborts before the second runs. -/
def stopSound (sound : String) (s : SoundState) : Except JsError SoundState :=
  match pauseClip sound s with
  | Except.error e => Except.error e
  | Except.ok s₁ => setTimeZero sound s₁

/-- One externally issued call to the module. -/
inductive SoundOp where
  | play : String → SoundOp
  | stop : String → SoundOp
deriving DecidableEq, Repr

/-- The module state after a call: on success the updated state, on a
lookup fault the exception propagates and the state is whatever it was
when the fault occurred (for these operations, unchanged, since the fault
precedes any mutation). -/
def applyOp (op : SoundOp) (s : SoundState) : SoundState :=
  match op with
  | SoundOp.play n =>
    match playSound n s with
    | Except.ok s' => s'
    | Except.error _ => s
  | SoundOp.stop n =>
    match stopSound n s with
    | Except.ok s' => s'
    | Except.error _ => s

/-- The module state after a sequence of calls. -/
def runOps (ops : List SoundOp) (s : SoundState) : SoundState :=
  ops.foldl (fun t op => applyOp op t) s

/-- The key-to-source-path skeleton of the state: what the registry binds,
ignoring the mutable playback fields. -/
def skeleton (s : SoundState) : List (String × String) :=
  s.map (fun p => (p.1, p.2.src))

section LookupLemmas

theorem getClip_eq_none_of_not_mem_keys (s : SoundState) (n : String)
    (h : n ∉ s.map Prod.fst) : getClip s n = none := by
  induction s with
  | nil => rfl
  | cons p t ih =>
    obtain ⟨k, v⟩ := p
    simp only [List.map_cons, List.mem_cons] at h
    push_neg at h
    simp only [getClip, if_neg h.1]
    exact ih h.2

theorem getClip_isSome_of_mem_keys (s : SoundState) (n : String)
    (h : n ∈ s.map Prod.fst) : ∃ c, getClip s n = some c := by
  induction s with
  | nil => simp at h
  | cons p t ih =>
    obtain ⟨k, v⟩ := p
    simp only [List.map_cons, List.mem_cons] at h
    by_cases hk : n = k
    · exact ⟨v, by simp [getClip, hk]⟩
    · obtain ⟨c, hc⟩ := ih (h.resolve_left hk)
      exact ⟨c, by simp only [getClip, if_neg hk]; exact hc⟩

theorem getClip_setClip_self (s : SoundState) (n : String) (c : Clip) :
    getClip (setClip s n c) n = (getClip s n).map (fun _ => c) := by
  induction s with
  | nil => rfl
  | cons p t ih =>
    obtain ⟨k, v⟩ := p
    by_cases hk : k = n
    · subst hk
      simp [setClip, getClip]
    · simp only [setClip, if_neg hk, getClip, if_neg (Ne.symm hk)]
      exact ih

theorem getClip_setClip_ne (s : SoundState) (n m : String) (c : Clip)
    (h : m ≠ n) : getClip (setClip s n c) m = getClip s m := by
  induction s with
  | nil => rfl
  | cons p t ih =>
    obtain ⟨k, v⟩ := p
    by_cases hk : k = n
    · subst hk
      simp only [setClip, if_pos rfl, getClip, if_neg h]
      exact ih
    · simp only [setClip, if_neg hk, getClip]
      by_cases hmk : m = k
      · simp [hmk]
      · simp only [if_neg hmk]
        exact ih

theorem setClip_setClip (s : SoundState) (n : String) (c c' : Clip) :
    setClip (setClip s n c) n c' = setClip s n c' := by
  induction s with
  | nil => rfl
  | cons p t ih =>
    obtain ⟨k, v⟩ := p
    by_cases hk : k = n <;> simp [setClip, hk, ih]

theorem keys_setClip (s : SoundState) (n : String) (c : Clip) :
    (setClip s n c).map Prod.fst = s.map Prod.fst := by
  induction s with
  | nil => rfl
  | cons p t ih =>
    obtain ⟨k, v⟩ := p
    by_cases hk : k = n <;> simp [setClip, hk, ih]

end LookupLemmas

section OpLemmas

theorem setClip_eq_self_of_not_mem (s : SoundState) (n : String) (c : Clip)
    (h : n ∉ s.map Prod.fst) : setClip s n c = s := by
  induction s with
  | nil => rfl
  | cons p t ih =>
    obtain ⟨k, v⟩ := p
    simp only [List.map_cons, List.mem_cons] at h
    push_neg at h
    simp only [setClip, if_neg (fun hk => h.1 (Eq.symm hk))]
    rw [ih h.2]

theorem playSound_eq (s : SoundState) (n : String) (c : Clip)
    (h : getClip s n = some c) :
    playSound n s = Except.ok (setClip s n (Clip.mk c.src true c.currentTime)) := by
  simp [playSound, h]

theorem pauseClip_eq (s : SoundState) (n : String) (c : Clip)
    (h : getClip s n = some c) :
    pauseClip n s = Except.ok (setClip s n (Clip.mk c.src false c.currentTime)) := by
  simp [pauseClip, h]

theorem stopSound_eq (s : SoundState) (n : String) (c : Clip)
    (h : getClip s n = some c) :
    stopSound n s = Except.ok (setClip s n (Clip.mk c.src false 0)) := by
  have h₂ : getClip (setClip s n (Clip.mk c.src false c.currentTime)) n
      = some (Clip.mk c.src false c.currentTime) := by
    rw [getClip_setClip_self, h]; rfl
  rw [stopSound, pauseClip_eq s n c h]
  simp [setTimeZero, h₂, setClip_setClip]

theorem playSound_err (s : SoundState) (n : String) (h : getClip s n = none) :
    playSound n s = Except.error (JsError.lookupError n) := by
  simp [playSound, h]

theorem pauseClip_err (s : SoundState) (n : String) (h : getClip s n = none) :
    pauseClip n s = Except.error (JsError.lookupError n) := by
  simp [pauseClip, h]

theorem stopSound_err (s : SoundState) (n : String) (h : getClip s n = none) :
    stopSound n s = Except.error (JsError.lookupError n) := by
  rw [stopSound, pauseClip_err s n h]

theorem skeleton_setClip (s : SoundState) (n : String) (c c' : Clip)
    (hnd : (s.map Prod.fst).Nodup) (h : getClip s n = some c)
    (hsrc : c'.src = c.src) : skeleton (setClip s n c') = skeleton s := by
  induction s with
  | nil => rfl
  | cons p t ih =>
    obtain ⟨k, v⟩ := p
    simp only [List.map_cons, List.nodup_cons] at hnd
    by_cases hk : k = n
    · subst hk
      have hv : v = c := by simpa [getClip] using h
      have ht : setClip t k c' = t :=
        setClip_eq_self_of_not_mem t k c' hnd.1
      simp [setClip, skeleton, ht, hsrc, hv]
    · have h' : getClip t n = some c := by
        simpa [getClip, if_neg (Ne.symm hk)] using h
      simp only [setClip, if_neg hk, skeleton, List.map_cons]
      have := ih hnd.2 h'
      simp only [skeleton] at this
      rw [this]

theorem map_fst_skeleton (s : SoundState) :
    (skeleton s).map Prod.fst = s.map Prod.fst := by
  induction s with
  | nil => rfl
  | cons p t ih =>
    simp only [skeleton, List.map_cons] at ih ⊢
    rw [ih]

theorem applyOp_skeleton (op : SoundOp) (s : SoundState)
    (hnd : (s.map Prod.fst).Nodup) : skeleton (applyOp op s) = skeleton s := by
  cases op with
  | play n =>
    cases hget : getClip s n with
    | none => simp [applyOp, playSound_err s n hget]
    | some c =>
      rw [applyOp, playSound_eq s n c hget]
      exact skeleton_setClip s n c _ hnd hget rfl
  | stop n =>
    cases hget : getClip s n with
    | none => simp [applyOp, stopSound_err s n hget]
    | some c =>
      rw [applyOp, stopSound_eq s n c hget]
      exact skeleton_setClip s n c _ hnd hget rfl

theorem runOps_skeleton (ops : List SoundOp) :
    ∀ s : SoundState, skeleton s = skeleton audio →
      skeleton (runOps ops s) = skeleton audio := by
  induction ops with
  | nil => intro s hs; simpa [runOps] using hs
  | cons op ops ih =>
    intro s hs
    have hkeys : s.map Prod.fst = audio.map Prod.fst := by
      rw [← map_fst_skeleton s, ← map_fst_skeleton audio, hs]
    have hnd : (s.map Prod.fst).Nodup := by rw [hkeys]; decide
    have hstep : runOps (op :: ops) s = runOps ops (applyOp op s) := by
      simp [runOps]
    rw [hstep]
    exact ih _ ((applyOp_skeleton op s hnd).trans hs)

end OpLemmas

/-- Transcription of the spec's claimed transition table for a clip's
playing flag: idle→playing via play, playing→playing via repeated play,
and playing→idle via stop. `true` when the (before, after) pair is one of
the transitions the spec lists for that operation. -/
def specAllowedStep (op : SoundOp) (before after : Bool) : Bool :=
  match op with
  | SoundOp.play _ => after
  | SoundOp.stop _ => before && !after

/-- Transcription of the spec's static configuration table: the
name → resource-path rows fixed at initialization. -/
def specSoundTable : List (String × String) :=
  [ ("alert", "/sound/alert.wav"),
    ("success", "/sound/success.wav"),
    ("error", "/sound/error.wav"),
    ("btn-on", "/sound/btn_on.ogg"),
    ("btn-off", "/sound/btn_off.ogg") ]

/-- C1: for any name absent from the five-name registry key set, both
`playSound` and `stopSound` fail with the lookup error carrying that name,
propagated to the caller. -/
theorem unregistered_lookup_error (s : SoundState) (n : String)
    (hkeys : s.map Prod.fst = soundNames) (hn : n ∉ soundNames) :
    playSound n s = Except.error (JsError.lookupError n) ∧
    stopSound n s = Except.error (JsError.lookupError n) := by
  have hget : getClip s n = none :=
    getClip_eq_none_of_not_mem_keys s n (by rw [hkeys]; exact hn)
  exact ⟨playSound_err s n hget, stopSound_err s n hget⟩

/-- Witness for C1 at the unregistered name `"missing-name"` on the
initial registry. -/
theorem unregistered_lookup_error_witness :
    playSound "missing-name" audio
      = Except.error (JsError.lookupError "missing-name") ∧
    stopSound "missing-name" audio
      = Except.error (JsError.lookupError "missing-name") :=
  unregistered_lookup_error audio "missing-name" (by decide) (by decide)

/-- C2: for a registered name, `stopSound` succeeds, leaves the clip not
playing with position zero, and a subsequent `playSound` starts it playing
from position zero. -/
theorem stopSound_resets_clip (s : SoundState) (n : String) (c : Clip)
    (h : getClip s n = some c) :
    ∃ s', stopSound n s = Except.ok s' ∧
      getClip s' n = some (Clip.mk c.src false 0) ∧
      ∃ s'', playSound n s' = Except.ok s'' ∧
        getClip s'' n = some (Clip.mk c.src true 0) := by
  refine ⟨setClip s n (Clip.mk c.src false 0), stopSound_eq s n c h, ?_, ?_⟩
  · rw [getClip_setClip_self, h]; rfl
  · have h' : getClip (setClip s n (Clip.mk c.src false 0)) n
        = some (Clip.mk c.src false 0) := by
      rw [getClip_setClip_self, h]; rfl
    refine ⟨_, playSound_eq _ n _ h', ?_⟩
    rw [getClip_setClip_self, h']; rfl

/-- Witness for C2: the `playSound "alert"` then `stopSound "alert"`
scenario, started from the initial registry. -/
theorem stopSound_resets_clip_witness :
    ∃ s', stopSound "alert" (applyOp (SoundOp.play "alert") audio)
        = Except.ok s' ∧
      getClip s' "alert" = some (Clip.mk "/sound/alert.wav" false 0) ∧
      ∃ s'', playSound "alert" s' = Except.ok s'' ∧
        getClip s'' "alert" = some (Clip.mk "/sound/alert.wav" true 0) :=
  stopSound_resets_clip (applyOp (SoundOp.play "alert") audio) "alert"
    (Clip.mk "/sound/alert.wav" true 0) (by decide)

/-- C3: for a registered name, `stopSound` does not raise from any clip
state, and it is idempotent: a second consecutive `stopSound` returns the
exact same state (still stopped, position zero). -/
theorem stopSound_idempotent (s : SoundState) (n : String) (c : Clip)
    (h : getClip s n = some c) :
    ∃ s₁, stopSound n s = Except.ok s₁ ∧
      getClip s₁ n = some (Clip.mk c.src false 0) ∧
      stopSound n s₁ = Except.ok s₁ := by
  refine ⟨setClip s n (Clip.mk c.src false 0), stopSound_eq s n c h, ?_, ?_⟩
  · rw [getClip_setClip_self, h]; rfl
  · have h' : getClip (setClip s n (Clip.mk c.src false 0)) n
        = some (Clip.mk c.src false 0) := by
      rw [getClip_setClip_self, h]; rfl
    rw [stopSound_eq _ n _ h', setClip_setClip]

/-- Witness for C3: `stopSound "success"` on the never-played initial
registry does not raise, and a second stop returns the same state. -/
theorem stopSound_idempotent_witness :
    ∃ s₁, stopSound "success" audio = Except.ok s₁ ∧
      getClip s₁ "success" = some (Clip.mk "/sound/success.wav" false 0) ∧
      stopSound "success" s₁ = Except.ok s₁ :=
  stopSound_idempotent audio "success"
    (Clip.mk "/sound/success.wav" false 0) (by decide)

/-- C4: for every registered name, `playSound` succeeds: the only failure
the module can produce is the key lookup, and the asynchronous result of
the platform `play()` call is discarded, never surfacing as an exception. -/
theorem playSound_no_raise (s : SoundState) (n : String)
    (hkeys : s.map Prod.fst = soundNames) (hn : n ∈ soundNames) :
    ∃ s', playSound n s = Except.ok s' := by
  obtain ⟨c, hc⟩ :=
    getClip_isSome_of_mem_keys s n (by rw [hkeys]; exact hn)
  exact ⟨_, playSound_eq s n c hc⟩

/-- Witness for C4 at the registered name `"alert"` on the initial
registry. -/
theorem playSound_no_raise_witness :
    ∃ s', playSound "alert" audio = Except.ok s' :=
  playSound_no_raise audio "alert" (by decide) (by decide)

/-- C5: the registry mapping is never mutated by the module's operations:
after any sequence of play/stop calls, the key set (and each key's bound
resource path) is exactly what it was at module initialization. -/
theorem registry_immutable (ops : List SoundOp) :
    (runOps ops audio).map Prod.fst = audio.map Prod.fst ∧
    skeleton (runOps ops audio) = skeleton audio := by
  have h := runOps_skeleton ops audio rfl
  refine ⟨?_, h⟩
  rw [← map_fst_skeleton (runOps ops audio), ← map_fst_skeleton audio, h]

/-- C6: `playSound` on an unregistered name raises the lookup error, and
the module state after the faulting call is exactly the state before it. -/
theorem playSound_missing_atomic (s : SoundState) (n : String)
    (hn : n ∉ s.map Prod.fst) :
    playSound n s = Except.error (JsError.lookupError n) ∧
    applyOp (SoundOp.play n) s = s := by
  have hget : getClip s n = none := getClip_eq_none_of_not_mem_keys s n hn
  have hp := playSound_err s n hget
  exact ⟨hp, by rw [applyOp, hp]⟩

/-- Witness for C6 at `"missing-name"` on the initial registry. -/
theorem playSound_missing_atomic_witness :
    playSound "missing-name" audio
      = Except.error (JsError.lookupError "missing-name") ∧
    applyOp (SoundOp.play "missing-name") audio = audio :=
  playSound_missing_atomic audio "missing-name" (by decide)

/-- C7: the registry as initialized holds exactly the five rows of the
spec's static configuration table, each as a fresh clip (not playing,
position zero), and no other entry. -/
theorem audio_matches_spec_table :
    audio = specSoundTable.map (fun p => (p.1, Clip.mk p.2 false 0)) ∧
    audio.map Prod.fst = soundNames := by decide

/-- C8 counterexample: `stopSound "success"` on the freshly initialized
registry succeeds and takes the clip's playing flag from `false` to
`false` — an idle→idle step via stop, which the spec's claimed transition
table (idle→playing and playing→playing via play, playing→idle via stop)
does not contain. -/
theorem claimed_transition_set_refuted :
    (getClip audio "success").map Clip.playing = some false ∧
    stopSound "success" audio
      = Except.ok (applyOp (SoundOp.stop "success") audio) ∧
    (getClip (applyOp (SoundOp.stop "success") audio) "success").map
      Clip.playing = some false ∧
    specAllowedStep (SoundOp.stop "success") false false = false :=
  ⟨by decide, by rfl, by decide, by decide⟩

/-- C8 amended: for a registered name, `playSound` always leaves the clip
playing (so a play step is idle→playing or playing→playing, and a second
consecutive play does not raise and leaves the clip playing) and
`stopSound` always leaves it idle (so a stop step is playing→idle, or
idle→idle on an already idle clip); no other transition is possible. -/
theorem playing_transitions_amended (s : SoundState) (n : String) (c : Clip)
    (h : getClip s n = some c) :
    (∃ s₁, playSound n s = Except.ok s₁ ∧
      (getClip s₁ n).map Clip.playing = some true ∧
      ∃ s₂, playSound n s₁ = Except.ok s₂ ∧
        (getClip s₂ n).map Clip.playing = some true) ∧
    (∃ s₃, stopSound n s = Except.ok s₃ ∧
      (getClip s₃ n).map Clip.playing = some false) := by
  have h₁ : getClip (setClip s n (Clip.mk c.src true c.currentTime)) n
      = some (Clip.mk c.src true c.currentTime) := by
    rw [getClip_setClip_self, h]; rfl
  refine ⟨⟨_, playSound_eq s n c h, by rw [h₁]; rfl, ?_⟩,
    ⟨_, stopSound_eq s n c h, ?_⟩⟩
  · refine ⟨_, playSound_eq _ n _ h₁, ?_⟩
    rw [getClip_setClip_self, h₁]; rfl
  · rw [getClip_setClip_self, h]; rfl

/-- Witness for amended C8: the `playSound "btn-on"` twice scenario on the
initial registry, plus the stop step, at the concrete clip. -/
theorem playing_transitions_amended_witness :
    (∃ s₁, playSound "btn-on" audio = Except.ok s₁ ∧
      (getClip s₁ "btn-on").map Clip.playing = some true ∧
      ∃ s₂, playSound "btn-on" s₁ = Except.ok s₂ ∧
        (getClip s₂ "btn-on").map Clip.playing = some true) ∧
    (∃ s₃, stopSound "btn-on" audio = Except.ok s₃ ∧
      (getClip s₃ "btn-on").map Clip.playing = some false) :=
  playing_transitions_amended audio "btn-on"
    (Clip.mk "/sound/btn_on.ogg" false 0) (by decide)

/-- C9: a play or stop call on name `n` leaves the clip bound to every
other name `m` untouched — same playing flag, same position, same
resource. -/
theorem play_stop_frame (s : SoundState) (n m : String) (c : Clip)
    (hm : m ≠ n) (h : getClip s n = some c) :
    (∃ s₁, playSound n s = Except.ok s₁ ∧ getClip s₁ m = getClip s m) ∧
    (∃ s₂, stopSound n s = Except.ok s₂ ∧ getClip s₂ m = getClip s m) :=
  ⟨⟨_, playSound_eq s n c h, getClip_setClip_ne s n m _ hm⟩,
   ⟨_, stopSound_eq s n c h, getClip_setClip_ne s n m _ hm⟩⟩

/-- Witness for C9: playing and stopping `"alert"` on the initial registry
leaves the `"success"` clip exactly as it was. -/
theorem play_stop_frame_witness :
    (∃ s₁, playSound "alert" audio = Except.ok s₁ ∧
      getClip s₁ "success" = getClip audio "success") ∧
    (∃ s₂, stopSound "alert" audio = Except.ok s₂ ∧
      getClip s₂ "success" = getClip audio "success") :=
  play_stop_frame audio "alert" "success"
    (Clip.mk "/sound/alert.wav" false 0) (by decide) (by decide)

/-- C10: `stopSound` on an unregistered name faults already at the
`pause()` dereference — the first of its two statements — so the position
assignment is never reached, the error propagates, and the module state
after the faulting call is exactly the state before it. -/
theorem stopSound_missing_atomic (s : SoundState) (n : String)
    (hn : n ∉ s.map Prod.fst) :
    pauseClip n s = Except.error (JsError.lookupError n) ∧
    stopSound n s = Except.error (JsError.lookupError n) ∧
    applyOp (SoundOp.stop n) s = s := by
  have hget : getClip s n = none := getClip_eq_none_of_not_mem_keys s n hn
  have hs := stopSound_err s n hget
  exact ⟨pauseClip_err s n hget, hs, by rw [applyOp, hs]⟩

/-- Witness for C10 at `"missing-name"` on the initial registry. -/
theorem stopSound_missing_atomic_witness :
    pauseClip "missing-name" audio
      = Except.error (JsError.lookupError "missing-name") ∧
    stopSound "missing-name" audio
      = Except.error (JsError.lookupError "missing-name") ∧
    applyOp (SoundOp.stop "missing-name") audio = audio :=
  stopSound_missing_atomic audio "missing-name" (by decide)
